import Mathlib

/-!
Verification of the Route Evaluation Engine of the repository
"A mobile application that assists individuals with visual impairment to
travel in Hong Kong".

The embedded code is `backend/google-map-api/googlemap-test.py`:
`decode_polyline`, `flatten_steps`, `compute_route_slope` and
`evaluate_routes`.  Python floats are modelled by real numbers (for the
slope pipeline, which uses `math.cos` and `math.sqrt`) and by rationals
where only field arithmetic occurs; Python exceptions are modelled by
`Option` (`none` = an uncaught exception escapes the function); the
network call to the Elevation Service is modelled by an explicit
provider parameter (`none` = the `try` block failed or the response
status was not OK, `some es` = the parsed elevation list).
-/

set_option autoImplicit false

namespace GMap

/-! ## PolylineDecoder (`decode_polyline`, lines 94-126)

The Python loop reads characters left to right.  Each 5-bit chunk is one
character: `b = ord(c) - 63`; `b & 0x1f` is ORed into the accumulator at
the current shift and the chunk ends when `b < 0x20`.  For any Python
integer `b`, `b & 0x1f` equals `b mod 32` with a non-negative result,
which is `Int.emod b 32` here.  Reading past the end of the string
raises an uncaught `IndexError`, modelled by `none`. -/

/-- Python expression `~(result >> 1) if (result & 1) else (result >> 1)`
on a non-negative integer: Python `~x` is `-(x+1)`. -/
def decodeValue (r : Nat) : Int :=
  if r % 2 = 1 then -(((r >>> 1 : Nat) : Int) + 1) else ((r >>> 1 : Nat) : Int)

/-- State machine for the decoding loop of `decode_polyline`.  `isLat`
tells whether the chunk being read belongs to the latitude (first) or
longitude (second) coordinate of the current point; `shift`/`result` are
the chunk accumulator; `lat`/`lng` the running coordinate sums.  The
outer `while index < len(...)` check corresponds to the input being
exhausted exactly when a latitude chunk is about to start (`isLat = true`,
`shift = 0`); exhaustion anywhere else is the `IndexError` of
`ord(polyline_str[index])`. -/
def decodeAux : List Nat → Bool → Nat → Nat → Int → Int → Option (List (Int × Int))
  | [], true, 0, _, _, _ => some []
  | [], _, _, _, _, _ => none
  | c :: rest, isLat, shift, result, lat, lng =>
    let b : Int := (c : Int) - 63
    let acc : Nat := Nat.lor result ((b.emod 32).toNat <<< shift)
    if b < 32 then
      if isLat then
        decodeAux rest false 0 0 (lat + decodeValue acc) lng
      else
        (decodeAux rest true 0 0 lat (lng + decodeValue acc)).map
          (fun ps => (lat, lng + decodeValue acc) :: ps)
    else
      decodeAux rest isLat (shift + 5) acc lat lng

/-- Embedding of `decode_polyline`: returns the accumulated integer coordinate pairs
(the Python code divides them by `1e5` when appending; that division is
`toPoint` below). `none` models the uncaught `IndexError` on a string
that ends mid-parse. -/
def decode_polyline (s : String) : Option (List (Int × Int)) :=
  decodeAux (s.toList.map Char.toNat) true 0 0 0 0

/-- The point actually appended by `decode_polyline`, namely
`(lat / 1e5, lng / 1e5)`, as an exact rational. -/
def toPoint (p : Int × Int) : ℚ × ℚ :=
  ((p.1 : ℚ) / 100000, (p.2 : ℚ) / 100000)

/-! ## StepFlattener (`flatten_steps`, lines 187-199) -/

/-- A Google Directions step dict, restricted to the fields the engine
reads: `html_instructions` (absent key modelled by `none`) and the
optional nested `steps` list.  The Python guard
`'steps' in step and isinstance(step['steps'], list) and step['steps']`
treats an absent key and a present empty list identically, so `sub`
keeps both cases (`none` = absent, `some []` = present but empty) even
though both behave as leaves. -/
inductive Step where
  | node (instr : Option String) (sub : Option (List Step))

/-- Embedding of `flatten_steps`: a step holding a non-empty `steps` list is replaced
by its recursively flattened children; every other step is appended
as-is. -/
def flatten_steps : List Step → List Step
  | [] => []
  | Step.node _ (some (t :: ts)) :: rest =>
      flatten_steps (t :: ts) ++ flatten_steps rest
  | s :: rest => s :: flatten_steps rest

/-- Modelled from the spec: the pre-order, left-to-right enumeration of
the leaf nodes of one step tree (the reference point for the flattening
invariant). -/
def stepLeaves : Step → List Step
  | Step.node i (some (t :: ts)) =>
      ((t :: ts).attach.map (fun x => stepLeaves x.1)).flatten
  | s => [s]
decreasing_by
  simp_wf
  have h1 : sizeOf x.1 < sizeOf (t :: ts) := List.sizeOf_lt_of_mem x.2
  simp only [List.cons.sizeOf_spec] at h1
  omega

/-- Modelled from the spec: the number of leaf nodes of one step tree. -/
def leafCount : Step → Nat
  | Step.node i (some (t :: ts)) =>
      ((t :: ts).attach.map (fun x => leafCount x.1)).sum
  | _ => 1
decreasing_by
  simp_wf
  have h1 : sizeOf x.1 < sizeOf (t :: ts) := List.sizeOf_lt_of_mem x.2
  simp only [List.cons.sizeOf_spec] at h1
  omega

/-- A step the flattening loop treats as a leaf: its `steps` entry is
absent or empty. -/
def isLeaf : Step → Bool
  | Step.node _ (some (_ :: _)) => false
  | _ => true

/-- The instruction text of a step, `s.get('html_instructions', '')`. -/
def instrOf : Step → String
  | Step.node i _ => i.getD ""

/-- One position of the Python substring test: does the character list
start with `t`, `u`, `r`, `n`? -/
def turnAt : List Char → Bool
  | 't' :: 'u' :: 'r' :: 'n' :: _ => true
  | _ => false

/-- Substring test `'turn' in cs` for a character list. -/
def containsTurn : List Char → Bool
  | [] => false
  | c :: rest => turnAt (c :: rest) || containsTurn rest

/-- The case-insensitive turn test `'turn' in s.lower()` applied to one
instruction string. -/
def hasTurn (s : String) : Bool :=
  containsTurn (s.toList.map Char.toLower)

/-- The `turn_count` accumulation loop of `evaluate_routes`
(lines 233-237). -/
def countTurns : List Step → Nat
  | [] => 0
  | s :: rest => (if hasTurn (instrOf s) then 1 else 0) + countTurns rest

/-! ## ElevationSampler and SlopeEstimator (`compute_route_slope`,
lines 129-184) -/

/-- A decoded geographic point, `(latitude, longitude)` in degrees. -/
abbrev Point := ℚ × ℚ

/-- Stride selection with a countdown: take the element when the
counter is `0`, then skip `n - 1` elements. -/
def everyNthAux {α : Type} (n : Nat) : List α → Nat → List α
  | [], _ => []
  | x :: xs, 0 => x :: everyNthAux n xs (n - 1)
  | _ :: xs, k + 1 => everyNthAux n xs k

/-- Embedding of `points[::step_size]` with `step_size = 5`: every fifth
point starting at index 0. -/
def everyFifth {α : Type} (l : List α) : List α :=
  everyNthAux 5 l 0

/-- The horizontal-distance approximation of the slope loop:
`dist_lat = (lat2-lat1)*111111`,
`dist_lng = (lng2-lng1)*111111*abs(cos(radians(avg_lat)))`,
`sqrt(dist_lat**2 + dist_lng**2)`; `math.radians(x)` is `x*pi/180`. -/
noncomputable def horizDist (p1 p2 : Point) : ℝ :=
  let dist_lat : ℝ := ((p2.1 - p1.1 : ℚ) : ℝ) * 111111
  let avg_lat : ℝ := ((p1.1 + p2.1 : ℚ) : ℝ) / 2
  let dist_lng : ℝ :=
    ((p2.2 - p1.2 : ℚ) : ℝ) * 111111 * |Real.cos (avg_lat * Real.pi / 180)|
  Real.sqrt (dist_lat ^ 2 + dist_lng ^ 2)

/-- One loop iteration's slope value:
`(delta_elevation / horizontal_dist) * 100` when the horizontal distance
is positive, `0.0` otherwise. -/
noncomputable def segSlope (p1 p2 : Point) (e1 e2 : ℝ) : ℝ :=
  if horizDist p1 p2 > 0 then (e2 - e1) / horizDist p1 p2 * 100 else 0

/-- The accumulation loop `for i in range(len(elevations) - 1)`: walks
the sampled points and the elevations in lockstep, adding `abs(slope)`
and counting segments.  `none` models the uncaught `IndexError` of
`sampled_points[i]` / `sampled_points[i+1]` when the elevation list is
longer than the sampled-point list (the loop bound comes from
`elevations` alone). -/
noncomputable def slopeSum : List Point → List ℝ → Option (ℝ × ℕ)
  | _, [] => some (0, 0)
  | _, [_] => some (0, 0)
  | p1 :: p2 :: ps, e1 :: e2 :: es =>
    (slopeSum (p2 :: ps) (e2 :: es)).map
      (fun r => (|segSlope p1 p2 e1 e2| + r.1, r.2 + 1))
  | _, _ :: _ :: _ => none

/-- The final averaging of `compute_route_slope`:
`avg_slope = total_slope / max(1, segment_count)` applied to the
accumulation loop's outcome. -/
noncomputable def estimateSlope (sampled : List Point) (elevations : List ℝ) : Option ℝ :=
  (slopeSum sampled elevations).map (fun r => r.1 / ((max 1 r.2 : ℕ) : ℝ))

/-- The Elevation Service boundary of `compute_route_slope`: `none`
models the `except` branch (network error, JSON error, missing
`elevation` key) and the non-OK `status` branch, both of which make the
function return `0.0`; `some es` models a status-OK response parsed into
`[res['elevation'] for res in results]`. -/
def Provider : Type := List Point → Option (List ℝ)

/-- Embedding of `compute_route_slope`: decode the polyline (an uncaught decode
`IndexError` propagates, `none`), return `0.0` for fewer than two
points, subsample every fifth point, query the provider (failure and
non-OK status return `0.0`), then average the absolute segment
slopes. -/
noncomputable def compute_route_slope (P : Provider) (route_polyline : String) : Option ℝ :=
  match decode_polyline route_polyline with
  | none => none
  | some ipts =>
    let points := ipts.map toPoint
    if points.length < 2 then some 0
    else
      let sampled := everyFifth points
      match P sampled with
      | none => some 0
      | some elevations => estimateSlope sampled elevations

/-! ## RouteScorer and RouteSelector (`evaluate_routes`, lines 202-266) -/

/-- A leg dict, restricted to the fields `evaluate_routes` reads:
`leg.get('steps', [])` and the optional `duration.value` (seconds). -/
structure Leg where
  steps : List Step
  duration : Option ℚ

/-- A route dict, restricted to the fields `evaluate_routes` reads:
`route.get('legs')` (an absent key and an empty list are both falsy and
behave identically, so both are the empty list here) and
`route.get('overview_polyline', {}).get('points', '')` (absent keys
default to the empty string). -/
structure Route where
  legs : List Leg
  overview_polyline : String

/-- The per-route quantities printed by the loop body, plus the weighted
score. -/
structure Breakdown where
  travel_time : ℚ
  step_count : ℕ
  turn_count : ℕ
  slope_factor : ℝ
  score : ℝ

/-- The body of the `for idx, route in enumerate(routes_data)` loop for
one route: `some none` is the `continue` on a route without legs,
`none` is an uncaught exception escaping the body (it aborts the whole
evaluation), and `some (some b)` is a scored route.  The weights are the
literals of lines 246-249 and the score the weighted sum of
lines 251-254; a leg without a `duration` key yields the sentinel
`999999`. -/
noncomputable def evalRoute (P : Provider) (r : Route) : Option (Option Breakdown) :=
  match r.legs with
  | [] => some none
  | leg :: _ =>
    let steps := flatten_steps leg.steps
    let travel_time : ℚ :=
      match leg.duration with
      | some d => d
      | none => 999999
    let step_count : ℕ := steps.length
    let turn_count : ℕ := countTurns steps
    let slopeRes : Option ℝ :=
      if r.overview_polyline = "" then some 0
      else compute_route_slope P r.overview_polyline
    match slopeRes with
    | none => none
    | some slope_factor =>
      some (some
        { travel_time := travel_time
          step_count := step_count
          turn_count := turn_count
          slope_factor := slope_factor
          score := 1 * (travel_time : ℝ) + 2 * slope_factor
            + 0.5 * (step_count : ℝ) + 0.75 * (turn_count : ℝ) })

/-- The selection loop.  `best` carries `best_route` and `best_score`
together; `none` stands for the initial
`best_route = None, best_score = float('inf')` state, against which any
finite score compares strictly smaller.  The update uses the strict
`score < best_score` of line 261. -/
noncomputable def evalLoop (P : Provider) :
    List Route → Option (Route × ℝ) → Option (Option Route)
  | [], best => some (best.map Prod.fst)
  | r :: rest, best =>
    match evalRoute P r with
    | none => none
    | some none => evalLoop P rest best
    | some (some b) =>
      match best with
      | none => evalLoop P rest (some (r, b.score))
      | some (_, bs) =>
        if b.score < bs then evalLoop P rest (some (r, b.score))
        else evalLoop P rest best

/-- Embedding of `evaluate_routes`: evaluate every candidate in input order and
return the tracked best route (`some none` = `None`, the no-valid-route
outcome; outer `none` = an uncaught exception aborted the loop). -/
noncomputable def evaluate_routes (P : Provider) (routes_data : List Route) :
    Option (Option Route) :=
  evalLoop P routes_data none

/-! ## Spec-side reference definitions and concrete test fixtures -/

/-- Modelled from the spec: the equirectangular horizontal distance of
§4.4, with the east-west component `longitude delta × 111111 ×
cos(average latitude in radians)` — no absolute value around the
cosine; squaring makes it agree with the code's `abs(math.cos(...))`. -/
noncomputable def specHorizDist (p1 p2 : Point) : ℝ :=
  Real.sqrt ((((p2.1 - p1.1 : ℚ) : ℝ) * 111111) ^ 2 +
    (((p2.2 - p1.2 : ℚ) : ℝ) * 111111 *
      Real.cos ((((p1.1 + p2.1 : ℚ) : ℝ) / 2) * Real.pi / 180)) ^ 2)

/-- Modelled from the spec: one segment's slope,
`(elevation delta / horizontal distance) × 100`, zero for a degenerate
segment. -/
noncomputable def specSegSlope (p1 p2 : Point) (e1 e2 : ℝ) : ℝ :=
  if specHorizDist p1 p2 = 0 then 0 else (e2 - e1) / specHorizDist p1 p2 * 100

/-- Modelled from the spec: the slope factor of a well-formed sample
list — the arithmetic mean of the absolute values of the consecutive
segment slopes. -/
noncomputable def specSlopeMean (samples : List (Point × ℝ)) : ℝ :=
  (((samples.zip samples.tail).map
      (fun pq => |specSegSlope pq.1.1 pq.2.1 pq.1.2 pq.2.2|)).sum) /
    (((samples.zip samples.tail).length : ℕ) : ℝ)

/-- A provider standing for an Elevation Service call that always fails
(every failure mode of the `try` block collapses to `none`). -/
def failProvider : Provider := fun _ => none

/-- A route with one leg that has no steps, duration 600 s, and no
overview polyline. -/
def steplessRoute : Route :=
  { legs := [{ steps := [], duration := some 600 }], overview_polyline := "" }

/-- A route with no legs at all. -/
def leglessRoute : Route := { legs := [], overview_polyline := "" }

/-- A route whose single (stepless) leg lacks a `duration` field. -/
def noDurationRoute : Route :=
  { legs := [{ steps := [], duration := none }], overview_polyline := "" }

/-- The breakdown produced for `noDurationRoute`: the sentinel `999999`
is the travel time and the whole score. -/
noncomputable def sentinelBreakdown : Breakdown :=
  ⟨999999, 0, 0, 0, 999999⟩

/-- A provider that answers with three elevation results regardless of
how many points were requested. -/
noncomputable def threeResultProvider : Provider := fun _ => some [0, 0, 0]

/-- A route whose polyline "AAAA" decodes to two points, of which
exactly one is sampled. -/
def mismatchRoute : Route :=
  { legs := [{ steps := [], duration := some 100 }], overview_polyline := "AAAA" }

/-- A route whose polyline "_" ends mid-chunk (continuation bit set on
the last character). -/
def truncatedRoute : Route :=
  { legs := [{ steps := [], duration := some 100 }], overview_polyline := "_" }

/-- The overview polyline of synthetic route B: six points at longitude
0, latitudes 0, 0, 0, 0, 0 and 0.001 degrees; sampling every fifth
point keeps indices 0 and 5, which lie 111.111 m apart. -/
def polyB : String := "??????????gE?"

/-- The leg of synthetic route A: five flattened leaf steps (two of
them nested under an internal step), two containing "turn". -/
def legA : Leg :=
  { steps :=
      [Step.node none (some [Step.node (some "Turn left onto X") none,
        Step.node (some "Head north") none]),
       Step.node (some "Turn right onto Y") none,
       Step.node (some "Continue straight") none,
       Step.node (some "Arrive") none]
    duration := some 600 }

/-- Synthetic route A: duration 600 s, 5 steps, 2 turns, no geometry
(slope 0). -/
def routeA : Route := { legs := [legA], overview_polyline := "" }

/-- The leg of synthetic route B: three leaf steps, one containing
"turn". -/
def legB : Leg :=
  { steps :=
      [Step.node (some "Head east") none,
       Step.node (some "Turn left") none,
       Step.node (some "Arrive at destination") none]
    duration := some 500 }

/-- Synthetic route B: duration 500 s, 3 steps, 1 turn, geometry
`polyB`. -/
def routeB : Route := { legs := [legB], overview_polyline := polyB }

/-- A provider answering 0 m and 11.1111 m for route B's two sampled
points, which makes route B's average absolute slope exactly 10 %. -/
noncomputable def providerB : Provider := fun _ => some [0, 111111 / 10000]

/-- Route A's breakdown: score 600 + 0 + 2.5 + 1.5 = 604. -/
noncomputable def breakdownA : Breakdown := ⟨600, 5, 2, 0, 604⟩

/-- Route B's breakdown: score 500 + 20 + 1.5 + 0.75 = 522.25. -/
noncomputable def breakdownB : Breakdown := ⟨500, 3, 1, 10, 522.25⟩

/-- A route scoring 598.5 + 1.5 = 600, tying with `steplessRoute`. -/
def tieRoute : Route :=
  { legs := [{ steps :=
      [Step.node (some "Head west") none, Step.node (some "Continue") none,
       Step.node (some "Arrive") none], duration := some (1197 / 2) }]
    overview_polyline := "" }

/-- A second leg that only a first-leg-insensitive evaluator could
notice. -/
def extraLeg : Leg := { steps := [], duration := some 1 }

/-- Like `routeA` but with a second leg appended after the first. -/
def routeTwoLegs : Route := { legs := [legA, extraLeg], overview_polyline := "" }

open Classical in
/-- Pointwise replacement of the candidate `r1` by `r2`. -/
noncomputable def swapIf (r1 r2 : Route) : Route → Route :=
  fun r => if r = r1 then r2 else r

/-! ## Helper lemmas -/

lemma stepLeaves_internal (i : Option String) (t : Step) (ts : List Step) :
    stepLeaves (Step.node i (some (t :: ts))) = ((t :: ts).map stepLeaves).flatten := by
  rw [stepLeaves, List.attach_map_val]

lemma leafCount_internal (i : Option String) (t : Step) (ts : List Step) :
    leafCount (Step.node i (some (t :: ts))) = ((t :: ts).map leafCount).sum := by
  rw [leafCount, List.attach_map_val]

lemma stepLeaves_of_leaf (s : Step)
    (h : ∀ i t ts, s = Step.node i (some (t :: ts)) → False) :
    stepLeaves s = [s] := by
  cases s with
  | node i sub =>
    match sub with
    | none => simp [stepLeaves]
    | some [] => simp [stepLeaves]
    | some (t :: ts) => exact absurd rfl (h i t ts)

lemma leafCount_of_leaf (s : Step)
    (h : ∀ i t ts, s = Step.node i (some (t :: ts)) → False) :
    leafCount s = 1 := by
  cases s with
  | node i sub =>
    match sub with
    | none => simp [leafCount]
    | some [] => simp [leafCount]
    | some (t :: ts) => exact absurd rfl (h i t ts)

lemma isLeaf_of_leaf (s : Step)
    (h : ∀ i t ts, s = Step.node i (some (t :: ts)) → False) :
    isLeaf s = true := by
  cases s with
  | node i sub =>
    match sub with
    | none => simp [isLeaf]
    | some [] => simp [isLeaf]
    | some (t :: ts) => exact absurd rfl (h i t ts)

lemma stepLeaves_length (s : Step) : (stepLeaves s).length = leafCount s := by
  induction s using stepLeaves.induct with
  | case1 i t ts ih =>
    rw [stepLeaves_internal, leafCount_internal, List.length_flatten, List.map_map]
    congr 1
    exact List.map_congr_left (fun a ha => ih ⟨a, ha⟩)
  | case2 s h =>
    rw [stepLeaves_of_leaf s h, leafCount_of_leaf s h]
    rfl

lemma stepLeaves_all_leaf (s : Step) : (stepLeaves s).all isLeaf = true := by
  induction s using stepLeaves.induct with
  | case1 i t ts ih =>
    rw [stepLeaves_internal]
    simp only [List.all_eq_true]
    intro x hx
    obtain ⟨l, hl, hxl⟩ := List.mem_flatten.1 hx
    obtain ⟨a, ha, rfl⟩ := List.mem_map.1 hl
    have h2 := ih ⟨a, ha⟩
    rw [List.all_eq_true] at h2
    exact h2 x hxl
  | case2 s h =>
    rw [stepLeaves_of_leaf s h]
    simp [isLeaf_of_leaf s h]

lemma flatten_eq_leaves (l : List Step) : flatten_steps l = (l.map stepLeaves).flatten := by
  induction l using flatten_steps.induct with
  | case1 => simp [flatten_steps]
  | case2 instr t ts rest ih1 ih2 =>
    rw [flatten_steps, ih1, ih2]
    simp [List.map_cons, List.flatten_cons, stepLeaves_internal]
  | case3 s rest h ih =>
    cases s with
    | node i sub =>
      match sub with
      | none => simp [flatten_steps, stepLeaves, ih]
      | some [] => simp [flatten_steps, stepLeaves, ih]
      | some (t :: ts) => exact absurd rfl (h i t ts)

lemma horizDist_nonneg (p1 p2 : Point) : 0 ≤ horizDist p1 p2 :=
  Real.sqrt_nonneg _

lemma horizDist_eq_spec (p1 p2 : Point) : horizDist p1 p2 = specHorizDist p1 p2 := by
  simp only [horizDist, specHorizDist, mul_pow, sq_abs]

lemma segSlope_eq_spec (p1 p2 : Point) (e1 e2 : ℝ) :
    segSlope p1 p2 e1 e2 = specSegSlope p1 p2 e1 e2 := by
  unfold segSlope specSegSlope
  rw [horizDist_eq_spec]
  rcases eq_or_lt_of_le (horizDist_eq_spec p1 p2 ▸ horizDist_nonneg p1 p2) with h | h
  · rw [if_neg (by rw [← h]; exact lt_irrefl 0), if_pos h.symm]
  · rw [if_pos h, if_neg (ne_of_gt h)]

lemma slopeSum_spec (samples : List (Point × ℝ)) :
    slopeSum (samples.map Prod.fst) (samples.map Prod.snd) =
      some (((samples.zip samples.tail).map
          (fun pq => |specSegSlope pq.1.1 pq.2.1 pq.1.2 pq.2.2|)).sum,
        (samples.zip samples.tail).length) := by
  induction samples with
  | nil => simp [slopeSum]
  | cons x rest ih =>
    cases rest with
    | nil => simp [slopeSum]
    | cons y rest2 =>
      simp only [List.map_cons] at ih ⊢
      rw [slopeSum, ih]
      simp [List.zip_cons_cons, segSlope_eq_spec, add_comm]

lemma evalRoute_nil (P : Provider) (r : Route) (h : r.legs = []) :
    evalRoute P r = some none := by
  unfold evalRoute
  rw [h]

lemma evalRoute_cons (P : Provider) (r : Route) (leg : Leg) (rest : List Leg)
    (h : r.legs = leg :: rest) :
    evalRoute P r =
      match (if r.overview_polyline = "" then some (0 : ℝ)
          else compute_route_slope P r.overview_polyline) with
      | none => none
      | some slope_factor =>
        some (some
          { travel_time := leg.duration.getD 999999
            step_count := (flatten_steps leg.steps).length
            turn_count := countTurns (flatten_steps leg.steps)
            slope_factor := slope_factor
            score := 1 * ((leg.duration.getD 999999 : ℚ) : ℝ) + 2 * slope_factor
              + 0.5 * ((flatten_steps leg.steps).length : ℝ)
              + 0.75 * (countTurns (flatten_steps leg.steps) : ℝ) }) := by
  unfold evalRoute
  rw [h]
  rcases hd : leg.duration with _ | d <;> simp [hd, Option.getD]

lemma compute_route_slope_decoded (P : Provider) (poly : String)
    (ipts : List (Int × Int)) (hdec : decode_polyline poly = some ipts) :
    compute_route_slope P poly =
      (if (ipts.map toPoint).length < 2 then some 0
        else match P (everyFifth (ipts.map toPoint)) with
          | none => some 0
          | some elevations => estimateSlope (everyFifth (ipts.map toPoint)) elevations) := by
  unfold compute_route_slope
  rw [hdec]

lemma countTurns_eq_filter (l : List Step) :
    countTurns l = (l.filter (fun s => hasTurn (instrOf s))).length := by
  induction l with
  | nil => rfl
  | cons s rest ih =>
    rw [countTurns, ih]
    by_cases h : hasTurn (instrOf s) <;> simp [List.filter_cons, h, add_comm]

lemma decodeAux_last_cont (l : List Nat) (cl : Nat) (hc : 95 ≤ cl) :
    ∀ (isLat : Bool) (shift result : Nat) (lat lng : Int),
      decodeAux (l ++ [cl]) isLat shift result lat lng = none := by
  induction l with
  | nil =>
    intro isLat shift result lat lng
    rw [List.nil_append, decodeAux]
    have hb : ¬ ((cl : Int) - 63 < 32) := by omega
    rw [if_neg hb]
    cases isLat <;> rfl
  | cons c0 rest ih =>
    intro isLat shift result lat lng
    rw [List.cons_append]
    simp only [decodeAux]
    by_cases hb : ((c0 : Int) - 63 < 32)
    · rw [if_pos hb]
      cases isLat
      · simp [ih]
      · simp [ih]
    · rw [if_neg hb]
      exact ih isLat (shift + 5) _ lat lng

lemma slopeB : compute_route_slope providerB polyB = some 10 := by
  have hdec : decode_polyline polyB =
      some [(0, 0), (0, 0), (0, 0), (0, 0), (0, 0), (100, 0)] := by decide
  rw [compute_route_slope_decoded providerB polyB _ hdec]
  rw [if_neg (by simp [toPoint])]
  have hsam : everyFifth ([((0 : Int), (0 : Int)), (0, 0), (0, 0), (0, 0), (0, 0),
      (100, 0)].map toPoint) = [((0 : ℚ), (0 : ℚ)), (1 / 1000, 0)] := by
    simp [everyFifth, everyNthAux, toPoint]
    norm_num
  rw [hsam]
  show estimateSlope [((0 : ℚ), (0 : ℚ)), (1 / 1000, 0)] [0, 111111 / 10000] = some 10
  have hH : horizDist ((0 : ℚ), (0 : ℚ)) ((1 : ℚ) / 1000, 0) = 111111 / 1000 := by
    unfold horizDist
    push_cast
    norm_num
    rw [show (12345654321 : ℝ) = 111111 ^ 2 by norm_num,
      show (1000000 : ℝ) = 1000 ^ 2 by norm_num,
      Real.sqrt_sq (by norm_num), Real.sqrt_sq (by norm_num)]
  have hseg : segSlope ((0 : ℚ), (0 : ℚ)) ((1 : ℚ) / 1000, 0) 0 (111111 / 10000) = 10 := by
    unfold segSlope
    rw [hH]
    rw [if_pos (by norm_num)]
    norm_num
  simp only [estimateSlope, slopeSum, hseg, Option.map_some']
  norm_num

lemma flattenA : flatten_steps legA.steps =
    [Step.node (some "Turn left onto X") none, Step.node (some "Head north") none,
     Step.node (some "Turn right onto Y") none, Step.node (some "Continue straight") none,
     Step.node (some "Arrive") none] := by
  simp [legA, flatten_steps]

lemma evalRouteA : evalRoute providerB routeA = some (some breakdownA) := by
  have h1 : countTurns (flatten_steps legA.steps) = 2 := by
    rw [flattenA]
    decide
  have h2 : (flatten_steps legA.steps).length = 5 := by
    rw [flattenA]
    rfl
  rw [evalRoute_cons providerB routeA legA [] rfl,
    if_pos (show routeA.overview_polyline = "" from rfl), h1, h2]
  simp only [breakdownA, legA, Option.getD, Option.some.injEq, Breakdown.mk.injEq]
  norm_num

lemma flattenB : flatten_steps legB.steps = legB.steps := by
  simp [legB, flatten_steps]

lemma evalRouteB : evalRoute providerB routeB = some (some breakdownB) := by
  have h1 : countTurns (flatten_steps legB.steps) = 1 := by
    rw [flattenB]
    decide
  have h2 : (flatten_steps legB.steps).length = 3 := by
    rw [flattenB]
    rfl
  have h3 : (if routeB.overview_polyline = "" then some (0 : ℝ)
      else compute_route_slope providerB routeB.overview_polyline) = some 10 := by
    rw [if_neg (by decide)]
    exact slopeB
  rw [evalRoute_cons providerB routeB legB [] rfl, h3, h1, h2]
  simp only [breakdownB, legB, Option.getD, Option.some.injEq, Breakdown.mk.injEq]
  norm_num

lemma evalLoop_keep (P : Provider) (l : List Route) (r : Route) (s : ℝ)
    (hnc : ∀ x ∈ l, evalRoute P x ≠ none)
    (hge : ∀ x ∈ l, ∀ b : Breakdown, evalRoute P x = some (some b) → s ≤ b.score) :
    evalLoop P l (some (r, s)) = some (some r) := by
  induction l with
  | nil => rfl
  | cons x rest ih =>
    have ih2 := ih (fun y hy => hnc y (List.mem_cons_of_mem x hy))
      (fun y hy b hb => hge y (List.mem_cons_of_mem x hy) b hb)
    rcases hx : evalRoute P x with _ | ob
    · exact absurd hx (hnc x (List.mem_cons_self x rest))
    · rcases ob with _ | b
      · rw [evalLoop, hx]
        exact ih2
      · rw [evalLoop, hx]
        have hle := hge x (List.mem_cons_self x rest) b hx
        show (if b.score < s then evalLoop P rest (some (x, b.score))
            else evalLoop P rest (some (r, s))) = some (some r)
        rw [if_neg (not_lt.mpr hle)]
        exact ih2

lemma evalLoop_enter (P : Provider) (r1 : Route) (b1 : Breakdown)
    (rest : List Route) (hr1 : evalRoute P r1 = some (some b1)) :
    ∀ (pre : List Route),
      (∀ x ∈ pre, evalRoute P x ≠ none) →
      (∀ x ∈ pre, ∀ b : Breakdown, evalRoute P x = some (some b) → b1.score < b.score) →
      ∀ best : Option (Route × ℝ),
        (best = none ∨ ∃ rb sb, best = some (rb, sb) ∧ b1.score < sb) →
        evalLoop P (pre ++ r1 :: rest) best = evalLoop P rest (some (r1, b1.score)) := by
  intro pre
  induction pre with
  | nil =>
    intro _ _ best hbest
    rw [List.nil_append, evalLoop, hr1]
    rcases hbest with rfl | ⟨rb, sb, rfl, hlt⟩
    · rfl
    · show (if b1.score < sb then evalLoop P rest (some (r1, b1.score))
          else evalLoop P rest (some (rb, sb))) = evalLoop P rest (some (r1, b1.score))
      rw [if_pos hlt]
  | cons x pre2 ih =>
    intro hnc hgt best hbest
    have hnc2 := fun y hy => hnc y (List.mem_cons_of_mem x hy)
    have hgt2 := fun y hy b hb => hgt y (List.mem_cons_of_mem x hy) b hb
    rw [List.cons_append]
    rcases hx : evalRoute P x with _ | ob
    · exact absurd hx (hnc x (List.mem_cons_self x pre2))
    · rcases ob with _ | b
      · rw [evalLoop, hx]
        exact ih hnc2 hgt2 best hbest
      · have hbx := hgt x (List.mem_cons_self x pre2) b hx
        rw [evalLoop, hx]
        rcases hbest with rfl | ⟨rb, sb, rfl, hlt⟩
        · exact ih hnc2 hgt2 (some (x, b.score)) (Or.inr ⟨x, b.score, rfl, hbx⟩)
        · show (if b.score < sb then evalLoop P (pre2 ++ r1 :: rest) (some (x, b.score))
              else evalLoop P (pre2 ++ r1 :: rest) (some (rb, sb))) =
            evalLoop P rest (some (r1, b1.score))
          by_cases hc : b.score < sb
          · rw [if_pos hc]
            exact ih hnc2 hgt2 (some (x, b.score)) (Or.inr ⟨x, b.score, rfl, hbx⟩)
          · rw [if_neg hc]
            exact ih hnc2 hgt2 (some (rb, sb)) (Or.inr ⟨rb, sb, rfl, hlt⟩)

lemma evalRoute_congr (P : Provider) (r1 r2 : Route)
    (hlegs : r1.legs.head? = r2.legs.head?)
    (hpoly : r1.overview_polyline = r2.overview_polyline) :
    evalRoute P r1 = evalRoute P r2 := by
  cases hl1 : r1.legs with
  | nil =>
    cases hl2 : r2.legs with
    | nil => rw [evalRoute_nil P r1 hl1, evalRoute_nil P r2 hl2]
    | cons leg2 rest2 =>
      rw [hl1, hl2] at hlegs
      simp at hlegs
  | cons leg rest =>
    cases hl2 : r2.legs with
    | nil =>
      rw [hl1, hl2] at hlegs
      simp at hlegs
    | cons leg2 rest2 =>
      rw [hl1, hl2] at hlegs
      simp only [List.head?_cons, Option.some.injEq] at hlegs
      rw [evalRoute_cons P r1 leg rest hl1, evalRoute_cons P r2 leg2 rest2 hl2,
        hlegs, hpoly]

lemma evalLoop_map (P : Provider) (f : Route → Route) :
    ∀ (l : List Route), (∀ r ∈ l, evalRoute P (f r) = evalRoute P r) →
      ∀ best : Option (Route × ℝ),
        evalLoop P (l.map f) (best.map (fun p => (f p.1, p.2))) =
          (evalLoop P l best).map (Option.map f) := by
  intro l
  induction l with
  | nil =>
    intro _ best
    cases best with
    | none => rfl
    | some p => rfl
  | cons x rest ih =>
    intro hf best
    have hf2 := fun y hy => hf y (List.mem_cons_of_mem x hy)
    rw [List.map_cons, evalLoop, evalLoop, hf x (List.mem_cons_self x rest)]
    rcases hx : evalRoute P x with _ | ob
    · rfl
    · rcases ob with _ | b
      · exact ih hf2 best
      · cases best with
        | none => exact ih hf2 (some (x, b.score))
        | some p =>
          obtain ⟨rb, sb⟩ := p
          show (if b.score < sb then evalLoop P (rest.map f) (some (f x, b.score))
              else evalLoop P (rest.map f) (some (f rb, sb))) =
            (if b.score < sb then evalLoop P rest (some (x, b.score))
              else evalLoop P rest (some (rb, sb))).map (Option.map f)
          by_cases hc : b.score < sb
          · rw [if_pos hc, if_pos hc]
            exact ih hf2 (some (x, b.score))
          · rw [if_neg hc, if_neg hc]
            exact ih hf2 (some (rb, sb))

lemma evalStepless : evalRoute failProvider steplessRoute =
    some (some ⟨600, 0, 0, 0, 600⟩) := by
  rw [evalRoute_cons failProvider steplessRoute { steps := [], duration := some 600 } [] rfl,
    if_pos (show steplessRoute.overview_polyline = "" from rfl)]
  simp only [flatten_steps, countTurns, Option.getD, Option.some.injEq, Breakdown.mk.injEq]
  norm_num

lemma evalTie : evalRoute failProvider tieRoute =
    some (some ⟨1197 / 2, 3, 0, 0, 600⟩) := by
  have h1 : countTurns (flatten_steps [Step.node (some "Head west") none,
      Step.node (some "Continue") none, Step.node (some "Arrive") none]) = 0 := by
    simp [flatten_steps]
    decide
  rw [evalRoute_cons failProvider tieRoute
      { steps := [Step.node (some "Head west") none, Step.node (some "Continue") none,
        Step.node (some "Arrive") none], duration := some (1197 / 2) } [] rfl,
    if_pos (show tieRoute.overview_polyline = "" from rfl), h1]
  simp only [flatten_steps, Option.getD, Option.some.injEq, Breakdown.mk.injEq]
  norm_num

lemma evalNoDuration : evalRoute failProvider noDurationRoute =
    some (some sentinelBreakdown) := by
  simp [evalRoute, noDurationRoute, flatten_steps, countTurns, sentinelBreakdown]

lemma horizDist_self (p : Point) : horizDist p p = 0 := by
  simp [horizDist, sub_self]

/-! ## Claim theorems -/

/-- C1: With the default weights time 1.0, slope 2.0, steps 0.5 and
turns 0.75, every scored candidate's score equals
`1*duration + 2*slopeFactor + 0.5*stepCount + 0.75*turnCount`, where the
turn count is the number of flattened leaf steps whose instruction text
contains the case-insensitive substring "turn"; and on the synthetic
pair of candidates, route A (duration 600, slope 0, 5 steps, 2 turns)
scores 604.0, route B (duration 500, slope 10, 3 steps, 1 turn) scores
522.25, and `evaluate_routes` selects route B. -/
theorem c1_scoring_and_selection :
    (∀ (P : Provider) (r : Route) (leg : Leg) (rest : List Leg) (b : Breakdown),
      r.legs = leg :: rest → evalRoute P r = some (some b) →
      b.score = 1 * (b.travel_time : ℝ) + 2 * b.slope_factor
          + 0.5 * (b.step_count : ℝ) + 0.75 * (b.turn_count : ℝ) ∧
      b.turn_count = ((flatten_steps leg.steps).filter
          (fun s => hasTurn (instrOf s))).length) ∧
    evalRoute providerB routeA = some (some breakdownA) ∧
    breakdownA.score = 604 ∧
    evalRoute providerB routeB = some (some breakdownB) ∧
    breakdownB.score = 522.25 ∧
    evaluate_routes providerB [routeA, routeB] = some (some routeB) := by
  refine ⟨?_, evalRouteA, rfl, evalRouteB, rfl, ?_⟩
  · intro P r leg rest b hlegs hb
    rw [evalRoute_cons P r leg rest hlegs] at hb
    rcases hs : (if r.overview_polyline = "" then some (0 : ℝ)
        else compute_route_slope P r.overview_polyline) with _ | sf
    · rw [hs] at hb
      simp at hb
    · rw [hs] at hb
      simp only [Option.some.injEq] at hb
      subst hb
      exact ⟨rfl, countTurns_eq_filter _⟩
  · unfold evaluate_routes
    rw [evalLoop, evalRouteA]
    show evalLoop providerB [routeB] (some (routeA, breakdownA.score)) = some (some routeB)
    rw [evalLoop, evalRouteB]
    show (if breakdownB.score < breakdownA.score
        then evalLoop providerB [] (some (routeB, breakdownB.score))
        else evalLoop providerB [] (some (routeA, breakdownA.score))) = some (some routeB)
    rw [if_pos (by norm_num [breakdownA, breakdownB])]
    rfl

/-- Witness for C1: the score formula and turn-count characterisation,
instantiated to `providerB`, `routeA` and `breakdownA`. -/
theorem c1_scoring_witness :
    breakdownA.score = 1 * (breakdownA.travel_time : ℝ) + 2 * breakdownA.slope_factor
        + 0.5 * (breakdownA.step_count : ℝ) + 0.75 * (breakdownA.turn_count : ℝ) ∧
    breakdownA.turn_count = ((flatten_steps legA.steps).filter
        (fun s => hasTurn (instrOf s))).length :=
  c1_scoring_and_selection.1 providerB routeA legA [] breakdownA rfl evalRouteA

/-- C2: For every finite Step forest, `flatten_steps` returns exactly
the pre-order, left-to-right enumeration of the forest's leaf nodes: the
output equals that enumeration as a list (hence no leaf is duplicated,
dropped, or reordered), its length is the total leaf count, and every
returned step is a leaf (internal nodes holding children are
discarded). -/
theorem c2_flatten_preorder_leaves (forest : List Step) :
    flatten_steps forest = (forest.map stepLeaves).flatten ∧
    (flatten_steps forest).length = (forest.map leafCount).sum ∧
    (flatten_steps forest).all isLeaf = true := by
  refine ⟨flatten_eq_leaves forest, ?_, ?_⟩
  · rw [flatten_eq_leaves, List.length_flatten, List.map_map]
    congr 1
    exact List.map_congr_left (fun a _ => stepLeaves_length a)
  · rw [flatten_eq_leaves]
    simp only [List.all_eq_true]
    intro x hx
    obtain ⟨l, hl, hxl⟩ := List.mem_flatten.1 hx
    obtain ⟨a, ha, rfl⟩ := List.mem_map.1 hl
    have h2 := stepLeaves_all_leaf a
    rw [List.all_eq_true] at h2
    exact h2 x hxl

/-- C3: Decoding the known encoded polyline yields exactly the three
points (38.5, -120.2), (40.7, -120.95), (43.252, -126.453) in
(latitude, longitude) order — here as exact rationals, which is stronger
than the 1e-5 tolerance of the claim.  (Purity and idempotence hold by
construction: `decode_polyline` is a function of the string alone.) -/
theorem c3_decode_known_polyline :
    decode_polyline "_p~iF~ps|U_ulLnnqC_mqNvxq`@" =
        some [(3850000, -12020000), (4070000, -12095000), (4325200, -12645300)] ∧
    [((3850000 : ℤ), (-12020000 : ℤ)), (4070000, -12095000),
        (4325200, -12645300)].map toPoint =
      [((38.5 : ℚ), (-120.2 : ℚ)), (40.7, -120.95), (43.252, -126.453)] := by
  constructor
  · decide
  · norm_num [toPoint]

/-- C4: Over an aligned sample list (one elevation per sampled point),
the slope estimate is exactly 0 for fewer than two samples; otherwise it
equals the arithmetic mean of the absolute per-segment slopes given by
the equirectangular formula of the spec (written with a plain cosine —
squaring makes it agree with the code's `abs(cos(...))`), and that mean
is non-negative; and a segment with zero horizontal distance contributes
slope 0. -/
theorem c4_slope_estimate (samples : List (Point × ℝ)) :
    (samples.length < 2 →
      estimateSlope (samples.map Prod.fst) (samples.map Prod.snd) = some 0) ∧
    (2 ≤ samples.length →
      estimateSlope (samples.map Prod.fst) (samples.map Prod.snd) =
          some (specSlopeMean samples) ∧
      0 ≤ specSlopeMean samples) ∧
    (∀ p1 p2 e1 e2, horizDist p1 p2 = 0 → segSlope p1 p2 e1 e2 = 0) := by
  refine ⟨?_, ?_, ?_⟩
  · intro h
    rcases samples with _ | ⟨x, _ | ⟨y, r⟩⟩
    · simp [estimateSlope, slopeSum]
    · simp [estimateSlope, slopeSum]
    · simp only [List.length_cons] at h
      omega
  · intro h
    have hz : (samples.zip samples.tail).length = samples.length - 1 := by
      rw [List.length_zip, List.length_tail]
      omega
    have hpos : 1 ≤ (samples.zip samples.tail).length := by omega
    have hmax : max 1 (samples.zip samples.tail).length =
        (samples.zip samples.tail).length := Nat.max_eq_right hpos
    constructor
    · unfold estimateSlope
      rw [slopeSum_spec]
      simp only [Option.map_some']
      rw [specSlopeMean, hmax]
    · apply div_nonneg
      · apply List.sum_nonneg
        intro a ha
        obtain ⟨pq, hpq, rfl⟩ := List.mem_map.1 ha
        exact abs_nonneg _
      · positivity
  · intro p1 p2 e1 e2 h
    unfold segSlope
    rw [h]
    simp

/-- Witness for C4: the empty sample list estimates slope 0, and a
degenerate segment (both endpoints equal) has slope 0. -/
theorem c4_slope_estimate_witness :
    estimateSlope [] [] = some 0 ∧
    segSlope ((0 : ℚ), (0 : ℚ)) ((0 : ℚ), (0 : ℚ)) 0 5 = 0 := by
  constructor
  · exact (c4_slope_estimate []).1 (by decide)
  · exact (c4_slope_estimate []).2.2 ((0 : ℚ), (0 : ℚ)) ((0 : ℚ), (0 : ℚ)) 0 5
      (horizDist_self ((0 : ℚ), (0 : ℚ)))

/-- Counterexample to C5: a status-OK response whose result count (3)
exceeds the number of sampled points (1, from the two decoded points of
"AAAA") does not degrade to slope 0.0 — `compute_route_slope` raises the
uncaught `IndexError` of `sampled_points[i+1]` (modelled `none`), and
the error aborts the evaluation of the whole batch instead of leaving
other routes unaffected. -/
theorem c5_provider_failure_counterexample :
    compute_route_slope threeResultProvider "AAAA" = none ∧
    evaluate_routes threeResultProvider [mismatchRoute, steplessRoute] = none := by
  have hdec : decode_polyline "AAAA" = some [(1, 1), (2, 2)] := by decide
  have h1 : compute_route_slope threeResultProvider "AAAA" = none := by
    unfold compute_route_slope
    rw [hdec]
    simp [toPoint, everyFifth, everyNthAux, threeResultProvider, estimateSlope, slopeSum]
  refine ⟨h1, ?_⟩
  rw [evaluate_routes, evalLoop,
    evalRoute_cons threeResultProvider mismatchRoute { steps := [], duration := some 100 } [] rfl]
  have hsl : (if mismatchRoute.overview_polyline = "" then some (0 : ℝ)
      else compute_route_slope threeResultProvider mismatchRoute.overview_polyline) = none := by
    rw [if_neg (by decide)]
    exact h1
  rw [hsl]

/-- C5 as amended: for every Elevation Service failure that the code
detects — an exception in the `try` block (network error, malformed
response) or a non-OK status, both modelled by the provider returning
`none` — slope computation returns exactly 0.0 without raising; a
status-OK response whose result count mismatches the sampled points is
not detected (more results raise an uncaught IndexError aborting the
batch, fewer silently compute a prefix slope). -/
theorem c5_provider_failure_amended (P : Provider) (poly : String)
    (ipts : List (Int × Int)) (hdec : decode_polyline poly = some ipts)
    (hP : ∀ pts, P pts = none) :
    compute_route_slope P poly = some 0 := by
  rw [compute_route_slope_decoded P poly ipts hdec]
  by_cases h : ((ipts.map toPoint).length < 2)
  · rw [if_pos h]
  · rw [if_neg h, hP]

/-- Witness for C5 as amended: the always-failing provider on the
two-point polyline "AAAA" yields slope 0.0. -/
theorem c5_provider_failure_witness :
    compute_route_slope failProvider "AAAA" = some 0 :=
  c5_provider_failure_amended failProvider "AAAA" [(1, 1), (2, 2)] (by decide)
    (fun _ => rfl)

/-- Counterexample to C6: a candidate whose single leg has no steps is
not skipped — it is scored (step count 0) and even selected, so the
all-candidates-degenerate input does not yield the NoRoute signal
(`some none`). -/
theorem c6_skip_noroute_counterexample :
    evaluate_routes failProvider [steplessRoute] = some (some steplessRoute) ∧
    some (some steplessRoute) ≠ (some none : Option (Option Route)) := by
  constructor
  · simp [evaluate_routes, evalLoop, evalRoute, steplessRoute, flatten_steps, countTurns]
  · simp

/-- C6 as amended: route selection skips, without raising an error,
every candidate that has no legs (a candidate with a leg but no steps is
still scored), and when the candidate list is empty or every candidate
lacks legs, the result is the explicit no-route signal `None`, not an
exception. -/
theorem c6_skip_noroute_amended (P : Provider) (routes : List Route)
    (h : ∀ r ∈ routes, r.legs = []) :
    evaluate_routes P routes = some none := by
  unfold evaluate_routes
  induction routes with
  | nil => simp [evalLoop]
  | cons r rest ih =>
    rw [evalLoop, evalRoute_nil P r (h r (List.mem_cons_self r rest))]
    exact ih (fun x hx => h x (List.mem_cons_of_mem r hx))

/-- Witness for C6 as amended: one legless candidate yields the NoRoute
signal. -/
theorem c6_skip_noroute_witness :
    evaluate_routes failProvider [leglessRoute] = some none :=
  c6_skip_noroute_amended failProvider [leglessRoute]
    (fun r hr => by
      rw [List.mem_singleton] at hr
      subst hr
      rfl)

/-- C7: the selection loop tracks the minimum with a strict less-than,
so it is a stable first-wins tie-break: if candidate `r1` comes before
candidate `r2`, both score, their scores are equal, every scored
candidate before `r1` scores strictly higher and every scored candidate
after `r1` scores at least as high, then `evaluate_routes` returns `r1`,
the tied candidate with the lower original index. -/
theorem c7_tie_break_first_wins (P : Provider) (pre mid post : List Route)
    (r1 r2 : Route) (b1 b2 : Breakdown)
    (h1 : evalRoute P r1 = some (some b1)) (h2 : evalRoute P r2 = some (some b2))
    (heq : b2.score = b1.score)
    (hpre1 : ∀ x ∈ pre, evalRoute P x ≠ none)
    (hpre2 : ∀ x ∈ pre, ∀ b : Breakdown, evalRoute P x = some (some b) →
      b1.score < b.score)
    (hrest1 : ∀ x ∈ mid ++ post, evalRoute P x ≠ none)
    (hrest2 : ∀ x ∈ mid ++ post, ∀ b : Breakdown, evalRoute P x = some (some b) →
      b1.score ≤ b.score) :
    evaluate_routes P (pre ++ r1 :: (mid ++ r2 :: post)) = some (some r1) := by
  unfold evaluate_routes
  rw [evalLoop_enter P r1 b1 (mid ++ r2 :: post) h1 pre hpre1 hpre2 none (Or.inl rfl)]
  apply evalLoop_keep
  · intro x hx
    rcases List.mem_append.1 hx with hm | hm
    · exact hrest1 x (List.mem_append.2 (Or.inl hm))
    · rcases List.mem_cons.1 hm with rfl | hm2
      · rw [h2]
        exact Option.some_ne_none _
      · exact hrest1 x (List.mem_append.2 (Or.inr hm2))
  · intro x hx b hb
    rcases List.mem_append.1 hx with hm | hm
    · exact hrest2 x (List.mem_append.2 (Or.inl hm)) b hb
    · rcases List.mem_cons.1 hm with rfl | hm2
      · rw [h2] at hb
        simp only [Option.some.injEq] at hb
        rw [← hb, heq]
      · exact hrest2 x (List.mem_append.2 (Or.inr hm2)) b hb

/-- Witness for C7: `steplessRoute` and `tieRoute` both score 600;
placed in that order, selection returns the first. -/
theorem c7_tie_break_witness :
    evaluate_routes failProvider [steplessRoute, tieRoute] = some (some steplessRoute) :=
  c7_tie_break_first_wins failProvider [] [] [] steplessRoute tieRoute
    ⟨600, 0, 0, 0, 600⟩ ⟨1197 / 2, 3, 0, 0, 600⟩ evalStepless evalTie rfl
    (fun x hx => absurd hx (List.not_mem_nil x))
    (fun x hx => absurd hx (List.not_mem_nil x))
    (fun x hx => absurd hx (List.not_mem_nil x))
    (fun x hx => absurd hx (List.not_mem_nil x))

/-- Counterexample to C8: the character '!' lies outside the expected
byte range (its code point is below 63), yet "!!" decodes without any
error, to the single point (1, 1) in scaled integer coordinates; and a
decode failure is not recovered during evaluation — a batch holding the
mid-chunk route "_" followed by a perfectly fine route aborts whole
(outer `none`) instead of evaluating the other route. -/
theorem c8_decode_error_counterexample :
    ('!'.toNat < 63 ∧ decode_polyline "!!" = some [(1, 1)]) ∧
    evaluate_routes failProvider [truncatedRoute, steplessRoute] = none := by
  refine ⟨⟨by decide, by decide⟩, ?_⟩
  have hdec : decode_polyline "_" = none := by decide
  have h1 : compute_route_slope failProvider "_" = none := by
    unfold compute_route_slope
    rw [hdec]
  rw [evaluate_routes, evalLoop,
    evalRoute_cons failProvider truncatedRoute { steps := [], duration := some 100 } [] rfl]
  have hsl : (if truncatedRoute.overview_polyline = "" then some (0 : ℝ)
      else compute_route_slope failProvider truncatedRoute.overview_polyline) = none := by
    rw [if_neg (by decide)]
    exact h1
  rw [hsl]

/-- C8 as amended: polyline decoding fails — with an uncaught
`IndexError`, not a dedicated DecodeError — for every encoded string
that ends mid-chunk (continuation bit set on the last character, i.e.
last code point at least 95); characters outside the expected byte range
are decoded without complaint; and the failure is not recovered during
route evaluation (see the counterexample for the aborted batch). -/
theorem c8_decode_error_amended (s : String) (l : List Char) (c : Char)
    (hs : s.toList = l ++ [c]) (hc : 95 ≤ c.toNat) :
    decode_polyline s = none := by
  unfold decode_polyline
  rw [hs, List.map_append, List.map_cons, List.map_nil]
  exact decodeAux_last_cont (l.map Char.toNat) c.toNat hc true 0 0 0 0

/-- Witness for C8 as amended: the one-character string "_" (code point
95, continuation bit set) fails to decode. -/
theorem c8_decode_error_witness :
    "_".toList = [] ++ ['_'] ∧ 95 ≤ '_'.toNat ∧ decode_polyline "_" = none :=
  ⟨rfl, by decide, c8_decode_error_amended "_" [] '_' rfl (by decide)⟩

/-- Counterexample to C9: a candidate whose leg lacks a duration field
is not excluded — it is scored with the sentinel 999999 substituted as
its travel time (whole score 999999) and is even selected. -/
theorem c9_missing_duration_counterexample :
    evaluate_routes failProvider [noDurationRoute] = some (some noDurationRoute) ∧
    evalRoute failProvider noDurationRoute = some (some sentinelBreakdown) := by
  refine ⟨?_, evalNoDuration⟩
  rw [evaluate_routes, evalLoop, evalNoDuration]
  simp [evalLoop]

/-- C9 as amended: for every candidate route whose first leg lacks a
duration field, whenever the loop body completes, the evaluator scores
the candidate (rather than excluding it) with the sentinel 999999
substituted as the travel time, silently feeding the score. -/
theorem c9_missing_duration_amended (P : Provider) (r : Route) (leg : Leg)
    (rest : List Leg) (h1 : r.legs = leg :: rest) (h2 : leg.duration = none)
    (h3 : evalRoute P r ≠ none) :
    ∃ b, evalRoute P r = some (some b) ∧ b.travel_time = 999999 ∧
      b.score = 1 * ((999999 : ℚ) : ℝ) + 2 * b.slope_factor
        + 0.5 * (b.step_count : ℝ) + 0.75 * (b.turn_count : ℝ) := by
  rw [evalRoute_cons P r leg rest h1] at h3 ⊢
  rw [h2] at h3 ⊢
  rcases hs : (if r.overview_polyline = "" then some (0 : ℝ)
      else compute_route_slope P r.overview_polyline) with _ | sf
  · rw [hs] at h3
    simp at h3
  · exact ⟨_, rfl, rfl, rfl⟩

/-- Witness for C9 as amended: `noDurationRoute` is scored with travel
time 999999. -/
theorem c9_missing_duration_witness :
    ∃ b, evalRoute failProvider noDurationRoute = some (some b) ∧
      b.travel_time = 999999 ∧
      b.score = 1 * ((999999 : ℚ) : ℝ) + 2 * b.slope_factor
        + 0.5 * (b.step_count : ℝ) + 0.75 * (b.turn_count : ℝ) :=
  c9_missing_duration_amended failProvider noDurationRoute
    { steps := [], duration := none } [] rfl rfl
    (by rw [evalNoDuration]; exact Option.some_ne_none _)

/-- C10: two candidates that agree on their first leg and on their
overview geometry (i.e. differ only in legs at index 1 and beyond)
evaluate to the same outcome — same skip/crash/score decision and the
same breakdown — and substituting one for the other throughout a
candidate list changes the selection result only by that same
substitution: legs beyond index 0 never affect evaluation. -/
theorem c10_first_leg_noninterference (P : Provider) (r1 r2 : Route)
    (hlegs : r1.legs.head? = r2.legs.head?)
    (hpoly : r1.overview_polyline = r2.overview_polyline)
    (l : List Route) :
    evalRoute P r1 = evalRoute P r2 ∧
    evaluate_routes P (l.map (swapIf r1 r2)) =
      (evaluate_routes P l).map (Option.map (swapIf r1 r2)) := by
  have hE := evalRoute_congr P r1 r2 hlegs hpoly
  refine ⟨hE, ?_⟩
  unfold evaluate_routes
  refine evalLoop_map P (swapIf r1 r2) l ?_ none
  intro r _
  unfold swapIf
  by_cases h : r = r1
  · rw [if_pos h, h, ← hE]
  · rw [if_neg h]

/-- Witness for C10: `routeTwoLegs` and `routeA` differ only in the
second leg and evaluate identically; swapping them in a singleton batch
swaps the selection result accordingly. -/
theorem c10_first_leg_witness :
    evalRoute failProvider routeTwoLegs = evalRoute failProvider routeA ∧
    evaluate_routes failProvider ([routeTwoLegs].map (swapIf routeTwoLegs routeA)) =
      (evaluate_routes failProvider [routeTwoLegs]).map
        (Option.map (swapIf routeTwoLegs routeA)) :=
  c10_first_leg_noninterference failProvider routeTwoLegs routeA rfl rfl [routeTwoLegs]

end GMap
